import Mathlib

/-!
Verification development for the rehabilitation-tracking backend.

The embedding below models the artifact-management core of the repository:
the audio handler (`src/services/audio_handler.py`) and the generation
gateway (`src/services/ai_model_service.py`), plus the schedule route
validation (`src/routes/ai.py`).

Modelling conventions:
- raw audio bytes are `List Nat`;
- a storage partition (a directory) is a `List AudioFile`, each entry
  carrying the filename, the content and the last-modified timestamp;
- wall-clock timestamps are integers counting seconds, so one hour is
  3600 time units (Python compares `datetime` values exactly, and only
  the ordering of timestamps matters to the code);
- environment inputs that Python reads implicitly (the generated UUID,
  `datetime.now()`, `time.time()`, and the HTTP response of the outbound
  `requests.post` call) are explicit parameters;
- Python float fields (`size_kb`, `confidence`) that no proof needs in
  float form are modelled with exact arithmetic (`confidence` as `ℚ`;
  `size_kb` is derived from `size_bytes` and omitted from the record).
-/

namespace Hack2Heal

/-- Raw audio bytes (`bytes` in Python). -/
abbrev ByteSeq := List Nat

/-- `listStartsWith pre l` : does `l` start with `pre`. -/
def listStartsWith : List Char → List Char → Bool
  | [], _ => true
  | _ :: _, [] => false
  | p :: ps, x :: xs => p == x && listStartsWith ps xs

/-- `l` ends with `suf` (Python `str.endswith` on the char lists). -/
def listEndsWith (l suf : List Char) : Bool :=
  listStartsWith suf.reverse l.reverse

/-- Python `s.endswith(suf)`. -/
def strEndsWith (s suf : String) : Bool :=
  listEndsWith s.toList suf.toList

/-- `containsSub needle hay` : Python `needle in hay` substring test. -/
def containsSub (needle : List Char) : List Char → Bool
  | [] => listStartsWith needle []
  | c :: cs => listStartsWith needle (c :: cs) || containsSub needle cs

/-- Python `needle in s.lower()` (ASCII lowering, as the tasks the code
compares against are ASCII keywords). -/
def lowerContains (needle s : String) : Bool :=
  containsSub needle.toList (s.toList.map Char.toLower)

/-- One file stored in an audio partition: name, content, last-modified
timestamp (`st_mtime`). -/
structure AudioFile where
  name : String
  content : ByteSeq
  mtime : Int
deriving DecidableEq

/-- The audio handler storage: the `temp/` and `permanent/` partitions of
`audio_outputs/` (`AudioHandler.__init__`). -/
structure AudioStore where
  temp : List AudioFile
  perm : List AudioFile
deriving DecidableEq

/-- Writing a file into a directory: silently overwrite an existing entry
with the same name, otherwise add the file (`open(file_path, 'wb')`). -/
def writeFile (files : List AudioFile) (f : AudioFile) : List AudioFile :=
  if files.any (fun g => g.name == f.name) then
    files.map (fun g => if g.name == f.name then f else g)
  else
    files ++ [f]

/-- Look a filename up in a directory. -/
def lookupFile (files : List AudioFile) (name : String) : Option AudioFile :=
  files.find? (fun f => f.name == name)

/-- Metadata record returned by `AudioHandler.save_audio` (the float field
`size_kb` is derived from `size_bytes` and omitted, see the file header). -/
structure SaveMeta where
  filename : String
  relative_path : String
  url : String
  format : String
  size_bytes : Nat
  created_at : Int
  permanent : Bool
deriving DecidableEq

/-- Filename resolution at the top of `AudioHandler.save_audio`: an absent
or empty caller filename (`if not filename`) is replaced by
`audio_<uuid>.<format>`; a caller filename not ending in `.<format>` gets
the extension appended; otherwise it is kept unchanged. -/
def resolveFilename : Option String → String → String → String
  | none, format, uuid => "audio_" ++ uuid ++ "." ++ format
  | some f, format, uuid =>
    if f = "" then "audio_" ++ uuid ++ "." ++ format
    else if strEndsWith f ("." ++ format) then f
    else f ++ ("." ++ format)

/-- `AudioHandler.save_audio(audio_data, filename, permanent, format)`.
`uuid` is the generated UUID string and `now` the current time, both
explicit here. Raises `ValueError` (modelled as `.error`) on empty bytes;
otherwise writes into the chosen partition and returns the new store with
the metadata dictionary. -/
def save_audio (st : AudioStore) (audio_data : ByteSeq) (filename : Option String)
    (permanent : Bool) (format : String) (uuid : String) (now : Int) :
    Except String (AudioStore × SaveMeta) :=
  if audio_data.isEmpty then
    .error "No audio data provided"
  else
    let fname := resolveFilename filename format uuid
    let file : AudioFile := ⟨fname, audio_data, now⟩
    let st2 : AudioStore :=
      if permanent then ⟨st.temp, writeFile st.perm file⟩
      else ⟨writeFile st.temp file, st.perm⟩
    let meta : SaveMeta :=
      ⟨fname,
       "audio_outputs/" ++ (if permanent then "permanent" else "temp") ++ "/" ++ fname,
       "/api/audio/" ++ fname,
       format,
       audio_data.length,
       now,
       permanent⟩
    .ok (st2, meta)

/-- `AudioHandler.get_audio(filename)`: checks the temp directory first,
then the permanent one; `None` when absent. -/
def get_audio (st : AudioStore) (filename : String) : Option ByteSeq :=
  match lookupFile st.temp filename with
  | some f => some f.content
  | none => (lookupFile st.perm filename).map (fun f => f.content)

/-- Extensions swept by `cleanup_temp_files` (the two `glob` passes,
`*.wav` then `*.mp3`; `.ogg` is not swept). -/
def isSweptExt (name : String) : Bool :=
  strEndsWith name ".wav" || strEndsWith name ".mp3"

/-- The deletion test of `AudioHandler.cleanup_temp_files`: a swept
extension and `modified_time < cutoff_time` where
`cutoff_time = now - timedelta(hours=max_age_hours)`. -/
def sweepDeletes (max_age_hours now : Int) (f : AudioFile) : Bool :=
  isSweptExt f.name && decide (f.mtime < now - 3600 * max_age_hours)

/-- `AudioHandler.cleanup_temp_files(max_age_hours)`: deletes the temp
files matching `sweepDeletes` and returns the new store together with the
number of files deleted. -/
def cleanup_temp_files (st : AudioStore) (max_age_hours : Int) (now : Int) :
    AudioStore × Nat :=
  (⟨st.temp.filter (fun f => !(sweepDeletes max_age_hours now f)), st.perm⟩,
   (st.temp.filter (fun f => sweepDeletes max_age_hours now f)).length)

/-- The `audio` field of the model response JSON: either a base64 string
or raw bytes (`generate_story`, lines 66-77). -/
inductive AudioPayload where
  | b64str (s : String)
  | raw (b : ByteSeq)
deriving DecidableEq

/-- Value of one base64 alphabet character. -/
def b64CharVal (c : Char) : Nat :=
  if 'A' ≤ c ∧ c ≤ 'Z' then c.toNat - 65
  else if 'a' ≤ c ∧ c ≤ 'z' then c.toNat - 97 + 26
  else if '0' ≤ c ∧ c ≤ '9' then c.toNat - 48 + 52
  else if c = '+' then 62
  else if c = '/' then 63
  else 0

/-- Base64 decoding of a well-padded character stream, four characters to
three bytes (`base64.b64decode` on valid input). -/
def b64DecodeChunks : List Char → ByteSeq
  | a :: b :: c :: d :: rest =>
    if c = '=' then
      [b64CharVal a * 4 + b64CharVal b / 16]
    else if d = '=' then
      [b64CharVal a * 4 + b64CharVal b / 16,
       b64CharVal b % 16 * 16 + b64CharVal c / 4]
    else
      (b64CharVal a * 4 + b64CharVal b / 16) ::
      (b64CharVal b % 16 * 16 + b64CharVal c / 4) ::
      ((b64CharVal c % 4 * 64 + b64CharVal d) :: b64DecodeChunks rest)
  | _ => []

/-- `base64.b64decode` as used on the response audio string. -/
def b64decode (s : String) : ByteSeq :=
  b64DecodeChunks s.toList

/-- The audio extraction of `generate_story`: Python truthiness on the
`audio` field (absent, empty string and empty bytes give `None`), base64
strings decoded, raw bytes passed through. -/
def extractAudio : Option AudioPayload → Option ByteSeq
  | none => none
  | some (.b64str s) => if s.isEmpty then none else some (b64decode s)
  | some (.raw b) => if b.isEmpty then none else some b

/-- JSON body of a story response: optional `text` (read with default
`''`) and optional `audio`. -/
structure StoryBody where
  text : Option String
  audio : Option AudioPayload
deriving DecidableEq

/-- Outcome of the outbound `requests.post` call: a network-level failure
(`requests.exceptions.RequestException`: connection refused, DNS failure,
timeout) or an HTTP response with a status code and a parsed JSON body. -/
inductive HttpOutcome (β : Type) where
  | netFailure
  | http (status : Nat) (body : β)
deriving DecidableEq

/-- The fixed pool of pre-written fallback stories
(`_generate_fallback_story`). -/
def fallbackStories : List String :=
  ["Today is a new chapter. Focus not on the mountain top, but on the single, steady step. " ++
   "Every small movement forward is progress. Your body is healing, and patience is your greatest strength.",
   "Like a river carving through stone, your consistent effort shapes your recovery. " ++
   "Celebrate the small victories - they are the building blocks of transformation.",
   "Recovery is not a race, it\x27s a journey of rediscovery. Each stretch, each breath, " ++
   "each mindful moment brings you closer to the version of yourself you\x27re becoming."]

/-- `FineTunedModelService._generate_fallback_story`: rotation by current
time modulo pool size, audio always `None`. `t` is `int(time.time())`. -/
def fallback_story (t : Nat) : String × Option ByteSeq :=
  (fallbackStories.getD (t % fallbackStories.length) "", none)

/-- `FineTunedModelService.generate_story(context)`. The HTTP outcome and
the current time are explicit parameters. A network-level exception falls
back to `fallback_story`; HTTP 200 extracts text and audio; any other
status raises (re-wrapped by the outer `except Exception` handler). -/
def generate_story : HttpOutcome StoryBody → Nat → Except String (String × Option ByteSeq)
  | .netFailure, t => .ok (fallback_story t)
  | .http status body, _ =>
    if status = 200 then
      .ok (body.text.getD "", extractAudio body.audio)
    else
      .error ("Failed to generate story: Model API returned status " ++ toString status)

/-- One entry of a schedule as it arrives in the response JSON: the
`time` and `task` keys may each be absent. -/
structure RawEntry where
  time : Option String
  task : Option String
deriving DecidableEq

/-- An entry carrying both keys, as the fallback scheduler builds them. -/
def entry (t task : String) : RawEntry := ⟨some t, some task⟩

/-- The validation test of `generate_schedule`: an entry is valid when
both `time` and `task` are present. -/
def validEntry (e : RawEntry) : Bool :=
  e.time.isSome && e.task.isSome

/-- JSON body of a schedule response: optional `schedule` (default `[]`),
`metadata` (default `{}`) and `confidence` (default `0.0`). -/
structure SchedBody where
  schedule : Option (List RawEntry)
  metadata : Option (List (String × String))
  confidence : Option ℚ
deriving DecidableEq

/-- The dictionary returned by `generate_schedule` (success or fallback). -/
structure ScheduleResult where
  schedule : List RawEntry
  metadata : List (String × String)
  confidence : ℚ
deriving DecidableEq

/-- Python `"posture" in task.lower()`. -/
def isPosture (task : String) : Bool := lowerContains "posture" task

/-- Python `"walk" in task.lower()`. -/
def isWalkTask (task : String) : Bool := lowerContains "walk" task

/-- The 12-hour rendering of `_generate_fallback_schedule`:
`f"{h}:00 AM"` when `h < 12`, else `f"{h - 12}:00 PM"`. -/
def fmtTime (h : Nat) : String :=
  if h < 12 then toString h ++ ":00 AM" else toString (h - 12) ++ ":00 PM"

/-- One loop iteration of `_generate_fallback_schedule`: the entries a
task emits and the updated `current_hour` cursor. Posture tasks emit
three entries two hours apart and leave the cursor; walk tasks emit the
fixed `5:00 PM` entry and leave the cursor; any other task takes the
cursor slot and advances it by two hours. -/
def taskEntries (h : Nat) (task : String) : List RawEntry × Nat :=
  if isPosture task then
    ([entry (fmtTime h) task, entry (fmtTime (h + 2)) task, entry (fmtTime (h + 4)) task], h)
  else if isWalkTask task then
    ([entry "5:00 PM" task], h)
  else
    ([entry (fmtTime h) task], h + 2)

/-- The loop of `_generate_fallback_schedule` starting from cursor `h`. -/
def buildSchedule (h : Nat) : List String → List RawEntry
  | [] => []
  | t :: ts => (taskEntries h t).1 ++ buildSchedule (taskEntries h t).2 ts

/-- Instrumented form of the fallback loop keeping each task next to the
entries it emitted, used to compare runs with different task lists. -/
def buildTagged (h : Nat) : List String → List (String × List RawEntry)
  | [] => []
  | t :: ts => (t, (taskEntries h t).1) :: buildTagged (taskEntries h t).2 ts

/-- `FineTunedModelService._generate_fallback_schedule(tasks)`:
`current_hour` starts at 11, confidence 0.5, metadata marks fallback. -/
def fallback_schedule (tasks : List String) : ScheduleResult :=
  ⟨buildSchedule 11 tasks, [("source", "fallback")], 1 / 2⟩

/-- `FineTunedModelService.generate_schedule(tasks, user_profile)`. A
network-level exception falls back; on HTTP 200 the schedule is validated
entry by entry (`ValueError` re-wrapped by the outer handler when a key
is missing); any other status raises. -/
def generate_schedule (tasks : List String) :
    HttpOutcome SchedBody → Except String ScheduleResult
  | .netFailure => .ok (fallback_schedule tasks)
  | .http status body =>
    if status = 200 then
      if (body.schedule.getD []).all validEntry then
        .ok ⟨body.schedule.getD [], body.metadata.getD [], body.confidence.getD 0⟩
      else
        .error "Failed to generate schedule: Invalid schedule format from model"
    else
      .error ("Failed to generate schedule: Model API returned status " ++ toString status)

/-- The `tasks` field of the request body of `POST /api/ai/generateschedule`:
either a JSON array of strings or a value of some other type. -/
inductive TasksField where
  | list (ts : List String)
  | nonList
deriving DecidableEq

/-- Parsed request body of the schedule route; `tasks = none` models a
body without a `tasks` key. -/
structure ScheduleRequest where
  tasks : Option TasksField
deriving DecidableEq

/-- Body of the route response: an error message or the schedule payload. -/
inductive RouteBody where
  | failure (msg : String)
  | payload (r : ScheduleResult)
deriving DecidableEq

/-- The validation prefix of the route handler `generate_schedule` in
`src/routes/ai.py`: a missing body or `tasks` key gives 400, a non-list
or empty `tasks` gives 400, and only then is the model service invoked
(the outbound HTTP outcome `resp` is consumed only in that last step). -/
def route_generate_schedule (data : Option ScheduleRequest)
    (resp : HttpOutcome SchedBody) : Nat × RouteBody :=
  match data with
  | none => (400, .failure "Missing \x27tasks\x27 field in request body")
  | some body =>
    match body.tasks with
    | none => (400, .failure "Missing \x27tasks\x27 field in request body")
    | some .nonList => (400, .failure "Tasks must be a non-empty array")
    | some (.list ts) =>
      if ts.isEmpty then (400, .failure "Tasks must be a non-empty array")
      else
        match generate_schedule ts resp with
        | .ok r => (200, .payload r)
        | .error e => (500, .failure e)

/-! ## Helper lemmas -/

/-- A list starts with itself followed by anything. -/
theorem listStartsWith_append (p r : List Char) :
    listStartsWith p (p ++ r) = true := by
  induction p with
  | nil => rfl
  | cons c cs ih => simp [listStartsWith, ih]

/-- Appending a suffix makes `strEndsWith` hold for that suffix. -/
theorem strEndsWith_append (f e : String) :
    strEndsWith (f ++ e) e = true := by
  have hdata : (f ++ e).toList = f.toList ++ e.toList := String.data_append f e
  unfold strEndsWith listEndsWith
  rw [hdata, List.reverse_append]
  exact listStartsWith_append _ _

/-- After replacing the entry named like `f`, `find?` returns `f`,
provided some entry had that name. -/
theorem find?_map_replace (files : List AudioFile) (f : AudioFile)
    (h : files.any (fun g => g.name == f.name) = true) :
    (files.map (fun g => if g.name == f.name then f else g)).find?
      (fun g => g.name == f.name) = some f := by
  induction files with
  | nil => simp at h
  | cons g gs ih =>
    by_cases hg : g.name == f.name
    · simp [hg, List.find?]
    · have h2 : gs.any (fun g => g.name == f.name) = true := by
        simp [List.any_cons, hg] at h
        simpa using h
      simp only [List.map_cons, List.find?]
      rw [if_neg (by simpa using hg)]
      simpa [hg] using ih h2

/-- Looking up a freshly written file finds exactly that file. -/
theorem lookupFile_writeFile (files : List AudioFile) (f : AudioFile) :
    lookupFile (writeFile files f) f.name = some f := by
  unfold lookupFile writeFile
  by_cases h : files.any (fun g => g.name == f.name) = true
  · rw [if_pos h]
    exact find?_map_replace files f h
  · rw [if_neg h]
    rw [List.find?_append]
    have hnone : files.find? (fun g => g.name == f.name) = none := by
      rw [List.find?_eq_none]
      intro x hx hpx
      exact h (List.any_eq_true.mpr ⟨x, hx, hpx⟩)
    simp [hnone, List.find?]

/-- The kept and deleted parts of a filter sweep partition the list. -/
theorem length_filter_partition {α : Type} (p : α → Bool) (l : List α) :
    (l.filter p).length + (l.filter (fun a => !(p a))).length = l.length := by
  induction l with
  | nil => rfl
  | cons x xs ih =>
    by_cases hx : p x <;> simp [List.filter_cons, hx] <;> omega

/-- A hit in the temp directory is what `get_audio` returns. -/
theorem get_audio_temp_hit (st : AudioStore) (f : AudioFile)
    (h : lookupFile st.temp f.name = some f) :
    get_audio st f.name = some f.content := by
  unfold get_audio
  rw [h]

/-! ## Claim theorems -/

/-- Claim C1: a non-empty byte sequence saved via `save_audio` with
`permanent = false` and no caller-supplied filename is returned
byte-identically by `get_audio` at the filename in the metadata, and the
stored file resides in the temp partition (the permanent partition is
untouched). -/
theorem save_then_get_roundtrip_temp (st : AudioStore) (data : ByteSeq)
    (fmt uuid : String) (now : Int) (hdata : data ≠ []) :
    ∃ st2 meta, save_audio st data none false fmt uuid now = .ok (st2, meta) ∧
      get_audio st2 meta.filename = some data ∧
      lookupFile st2.temp meta.filename = some ⟨meta.filename, data, now⟩ ∧
      st2.perm = st.perm := by
  obtain ⟨a, as, rfl⟩ : ∃ a as, data = a :: as := by
    cases data with
    | nil => exact absurd rfl hdata
    | cons a as => exact ⟨a, as, rfl⟩
  refine ⟨_, _, rfl, ?_, ?_, rfl⟩
  · exact get_audio_temp_hit ⟨writeFile st.temp ⟨resolveFilename none fmt uuid, a :: as, now⟩, st.perm⟩
      ⟨resolveFilename none fmt uuid, a :: as, now⟩
      (lookupFile_writeFile st.temp ⟨resolveFilename none fmt uuid, a :: as, now⟩)
  · exact lookupFile_writeFile st.temp ⟨resolveFilename none fmt uuid, a :: as, now⟩

/-- Claim C1 witness at a concrete one-byte payload. -/
theorem save_then_get_roundtrip_temp_witness :
    ∃ st2 meta, save_audio ⟨[], []⟩ [7] none false "wav" "u" 0 = .ok (st2, meta) ∧
      get_audio st2 meta.filename = some [7] ∧
      lookupFile st2.temp meta.filename = some ⟨meta.filename, [7], 0⟩ ∧
      st2.perm = ([] : List AudioFile) :=
  save_then_get_roundtrip_temp ⟨[], []⟩ [7] "wav" "u" 0 (by decide)

/-- Claim C2: `cleanup_temp_files` keeps a temp wav/mp3 file exactly when
its age from last-modified time does not strictly exceed the threshold
(so deletion happens exactly when `now - mtime > max_age_hours`, with one
hour being 3600 time units), and the returned count is the number of temp
files removed. At `max_age_hours = 0` a file with `mtime = now` survives. -/
theorem cleanup_deletes_strictly_older (st : AudioStore) (maxAge now : Int)
    (f : AudioFile) (hmem : f ∈ st.temp) (hext : isSweptExt f.name = true) :
    (f ∈ (cleanup_temp_files st maxAge now).1.temp ↔ ¬(now - f.mtime > 3600 * maxAge)) ∧
    (cleanup_temp_files st maxAge now).2 =
      st.temp.length - (cleanup_temp_files st maxAge now).1.temp.length := by
  constructor
  · unfold cleanup_temp_files
    simp only [List.mem_filter]
    constructor
    · rintro ⟨-, hkeep⟩ hgt
      have hdel : sweepDeletes maxAge now f = true := by
        unfold sweepDeletes
        rw [hext]
        simp only [Bool.true_and, decide_eq_true_eq]
        omega
      rw [hdel] at hkeep
      exact Bool.false_ne_true hkeep
    · intro hng
      refine ⟨hmem, ?_⟩
      have hdel : sweepDeletes maxAge now f = false := by
        unfold sweepDeletes
        rw [hext]
        simp only [Bool.true_and, decide_eq_false_iff_not]
        omega
      rw [hdel]
      rfl
  · have hpart := length_filter_partition (fun g => sweepDeletes maxAge now g) st.temp
    unfold cleanup_temp_files
    simp only
    omega

/-- Claim C2 witness: the boundary case, a file saved at the very instant
the sweep runs with `max_age_hours = 0` is kept. -/
theorem cleanup_strict_boundary_witness :
    ((⟨"a.wav", [0], (0 : Int)⟩ : AudioFile) ∈
      (cleanup_temp_files ⟨[⟨"a.wav", [0], 0⟩], []⟩ 0 0).1.temp) ∧
    ¬((0 : Int) - 0 > 3600 * 0) := by
  have hth := cleanup_deletes_strictly_older ⟨[⟨"a.wav", [0], 0⟩], []⟩ 0 0
    ⟨"a.wav", [0], 0⟩ (by decide) (by decide)
  exact ⟨hth.1.mpr (by decide), by decide⟩

/-- Claim C3: `cleanup_temp_files` never deletes or modifies anything in
the permanent partition, for every store and every threshold, and it only
ever removes files from the temp partition. -/
theorem cleanup_preserves_permanent_partition (st : AudioStore) (maxAge now : Int) :
    (cleanup_temp_files st maxAge now).1.perm = st.perm ∧
    (cleanup_temp_files st maxAge now).1.temp ⊆ st.temp :=
  ⟨rfl, fun _ ha => (List.mem_filter.mp ha).1⟩

/-- `getD` at an index below the length picks an element of the list. -/
theorem getD_mem_of_lt {α : Type} (l : List α) (n : Nat) (d : α)
    (h : n < l.length) : l.getD n d ∈ l := by
  induction l generalizing n with
  | nil => simp at h
  | cons x xs ih =>
    cases n with
    | zero => simp [List.getD]
    | succ m =>
      have hm : m < xs.length := by simpa using h
      simpa [List.getD] using Or.inr (ih m hm)

/-- Claim C4: a network-level failure makes `generate_story` return the
fallback text selected by current time modulo the pool size, paired with
null audio, and the text is one of the fixed pre-written stories; a
non-200 HTTP response with no network exception instead surfaces an
error to the caller and does not fall back. -/
theorem generate_story_failure_paths (t s : Nat) (b : StoryBody) (hs : s ≠ 200) :
    generate_story HttpOutcome.netFailure t =
      .ok (fallbackStories.getD (t % fallbackStories.length) "", none) ∧
    fallbackStories.getD (t % fallbackStories.length) "" ∈ fallbackStories ∧
    generate_story (HttpOutcome.http s b) t =
      .error ("Failed to generate story: Model API returned status " ++ toString s) := by
  refine ⟨rfl, ?_, ?_⟩
  · exact getD_mem_of_lt fallbackStories (t % fallbackStories.length) ""
      (Nat.mod_lt t (by decide))
  · simp only [generate_story]
    rw [if_neg hs]

/-- Claim C4 witness at time 0 and HTTP status 500. -/
theorem generate_story_failure_paths_witness :
    generate_story HttpOutcome.netFailure 0 =
      .ok (fallbackStories.getD (0 % fallbackStories.length) "", none) ∧
    fallbackStories.getD (0 % fallbackStories.length) "" ∈ fallbackStories ∧
    generate_story (HttpOutcome.http 500 ⟨none, none⟩) 0 =
      .error ("Failed to generate story: Model API returned status " ++ toString 500) :=
  generate_story_failure_paths 0 500 ⟨none, none⟩ (by decide)

/-- Claim C5: an HTTP 200 schedule response with an entry lacking `time`
or `task` makes `generate_schedule` fail with the malformed-response
error propagated to the caller, not fall back to the local scheduler. -/
theorem generate_schedule_malformed_fatal (tasks : List String) (body : SchedBody)
    (e : RawEntry) (he : e ∈ body.schedule.getD []) (hbad : validEntry e = false) :
    generate_schedule tasks (HttpOutcome.http 200 body) =
      .error "Failed to generate schedule: Invalid schedule format from model" ∧
    generate_schedule tasks (HttpOutcome.http 200 body) ≠
      .ok (fallback_schedule tasks) := by
  have hall : (body.schedule.getD []).all validEntry = false := by
    by_cases h : (body.schedule.getD []).all validEntry = true
    · have hv := List.all_eq_true.mp h e he
      rw [hbad] at hv
      exact absurd hv Bool.false_ne_true
    · simpa using h
  have hres : generate_schedule tasks (HttpOutcome.http 200 body) =
      .error "Failed to generate schedule: Invalid schedule format from model" := by
    simp only [generate_schedule]
    rw [hall]
    simp
  exact ⟨hres, by rw [hres]; exact fun h => Except.noConfusion h⟩

/-- Claim C5 witness: a 200 response whose single entry has no `task`. -/
theorem generate_schedule_malformed_fatal_witness :
    generate_schedule ["Knee Stretches"]
        (HttpOutcome.http 200 ⟨some [⟨some "9:00 AM", none⟩], none, none⟩) =
      .error "Failed to generate schedule: Invalid schedule format from model" ∧
    generate_schedule ["Knee Stretches"]
        (HttpOutcome.http 200 ⟨some [⟨some "9:00 AM", none⟩], none, none⟩) ≠
      .ok (fallback_schedule ["Knee Stretches"]) :=
  generate_schedule_malformed_fatal ["Knee Stretches"]
    ⟨some [⟨some "9:00 AM", none⟩], none, none⟩
    ⟨some "9:00 AM", none⟩ (by decide) (by decide)

/-- Claim C6: the fallback scheduler on the single task list
`["Check Posture"]` yields exactly three entries, all for that task, two
hours apart from the fixed base hour 11, with hours at or past 12
rendered wrapped into PM. -/
theorem fallback_schedule_single_posture :
    (fallback_schedule ["Check Posture"]).schedule =
      [entry "11:00 AM" "Check Posture", entry "1:00 PM" "Check Posture",
       entry "3:00 PM" "Check Posture"] ∧
    (fallback_schedule ["Check Posture"]).schedule.length = 3 ∧
    (fallback_schedule ["Check Posture"]).schedule.all
      (fun e => e.task == some "Check Posture") = true :=
  ⟨rfl, rfl, rfl⟩

/-- Claim C7: the schedule route rejects an empty `tasks` list with the
HTTP 400 invalid-input error, uniformly in the outcome of the outbound
model call — so no network call is consulted before failing. -/
theorem route_empty_tasks_rejected_before_network (resp : HttpOutcome SchedBody) :
    route_generate_schedule (some ⟨some (TasksField.list [])⟩) resp =
      (400, RouteBody.failure "Tasks must be a non-empty array") :=
  rfl

/-- Claim C8: for a caller-supplied filename, `save_audio` stores a
filename ending in the target extension, unchanged when the caller
filename already ends in `.<format>` and with `.<format>` appended
exactly once otherwise. -/
theorem save_audio_extension_exactly_once (st : AudioStore) (data : ByteSeq)
    (f fmt uuid : String) (perm : Bool) (now : Int)
    (hdata : data ≠ []) (hf : f ≠ "") :
    ∃ st2 meta, save_audio st data (some f) perm fmt uuid now = .ok (st2, meta) ∧
      strEndsWith meta.filename ("." ++ fmt) = true ∧
      (strEndsWith f ("." ++ fmt) = true → meta.filename = f) ∧
      (strEndsWith f ("." ++ fmt) = false → meta.filename = f ++ ("." ++ fmt)) := by
  obtain ⟨a, as, rfl⟩ : ∃ a as, data = a :: as := by
    cases data with
    | nil => exact absurd rfl hdata
    | cons a as => exact ⟨a, as, rfl⟩
  have hres : resolveFilename (some f) fmt uuid =
      if strEndsWith f ("." ++ fmt) = true then f else f ++ ("." ++ fmt) := by
    simp only [resolveFilename]
    rw [if_neg hf]
  refine ⟨_, _, rfl, ?_, ?_, ?_⟩
  · show strEndsWith (resolveFilename (some f) fmt uuid) ("." ++ fmt) = true
    rw [hres]
    by_cases hc : strEndsWith f ("." ++ fmt) = true
    · rw [if_pos hc]
      exact hc
    · rw [if_neg hc]
      exact strEndsWith_append f ("." ++ fmt)
  · intro hc
    show resolveFilename (some f) fmt uuid = f
    rw [hres, if_pos hc]
  · intro hc
    show resolveFilename (some f) fmt uuid = f ++ ("." ++ fmt)
    rw [hres, if_neg (by simp [hc])]

/-- Claim C8 witness: filename `clip` with format `wav` becomes
`clip.wav`. -/
theorem save_audio_extension_exactly_once_witness :
    ∃ st2 meta, save_audio ⟨[], []⟩ [1] (some "clip") false "wav" "u" 0 = .ok (st2, meta) ∧
      strEndsWith meta.filename ("." ++ "wav") = true ∧
      (strEndsWith "clip" ("." ++ "wav") = true → meta.filename = "clip") ∧
      (strEndsWith "clip" ("." ++ "wav") = false → meta.filename = "clip" ++ ("." ++ "wav")) :=
  save_audio_extension_exactly_once ⟨[], []⟩ [1] "clip" "wav" "u" false 0
    (by decide) (by decide)

/-- Claim C9 counterexample: the url in the metadata of a concrete
successful save is `/api/audio/a.wav`, which is not `/audio/a.wav` — the
claimed form `/audio/<filename>` does not match the stored field. -/
theorem save_audio_url_prefix_cex :
    (save_audio ⟨[], []⟩ [1] (some "a.wav") false "wav" "u" 0).map (fun p => p.2.url) =
      .ok "/api/audio/a.wav" ∧
    ("/api/audio/a.wav" : String) ≠ "/audio/" ++ "a.wav" :=
  ⟨rfl, by decide⟩

/-- Claim C9 as amended: the url field of every successful `save_audio`
is `/api/audio/<filename>` for the stored filename. -/
theorem save_audio_url_api_form (st : AudioStore) (data : ByteSeq)
    (filename : Option String) (perm : Bool) (fmt uuid : String) (now : Int)
    (hdata : data ≠ []) :
    ∃ st2 meta, save_audio st data filename perm fmt uuid now = .ok (st2, meta) ∧
      meta.url = "/api/audio/" ++ meta.filename := by
  obtain ⟨a, as, rfl⟩ : ∃ a as, data = a :: as := by
    cases data with
    | nil => exact absurd rfl hdata
    | cons a as => exact ⟨a, as, rfl⟩
  exact ⟨_, _, rfl, rfl⟩

/-- Claim C9 amended witness at a concrete save. -/
theorem save_audio_url_api_form_witness :
    ∃ st2 meta, save_audio ⟨[], []⟩ [1] (some "a.wav") false "wav" "u" 0 = .ok (st2, meta) ∧
      meta.url = "/api/audio/" ++ meta.filename :=
  save_audio_url_api_form ⟨[], []⟩ [1] (some "a.wav") false "wav" "u" 0 (by decide)

/-- A posture task leaves the `current_hour` cursor unchanged. -/
theorem taskEntries_posture_snd (h : Nat) (t : String) (hp : isPosture t = true) :
    (taskEntries h t).2 = h := by
  simp [taskEntries, hp]

/-- `buildSchedule` is the concatenation of the per-task entry lists of
the instrumented loop. -/
theorem buildSchedule_eq_join_tagged (tasks : List String) : ∀ h : Nat,
    buildSchedule h tasks = ((buildTagged h tasks).map Prod.snd).flatten := by
  induction tasks with
  | nil => intro h; rfl
  | cons t ts ih =>
    intro h
    simp only [buildSchedule, buildTagged, List.map_cons, List.flatten_cons, ih]

/-- Dropping the posture tasks from the input does not change any other
task's entries: the instrumented loop commutes with the posture filter. -/
theorem buildTagged_filter_posture (tasks : List String) : ∀ h : Nat,
    (buildTagged h tasks).filter (fun p => !(isPosture p.1)) =
      buildTagged h (tasks.filter (fun t => !(isPosture t))) := by
  induction tasks with
  | nil => intro h; rfl
  | cons t ts ih =>
    intro h
    by_cases hp : isPosture t = true
    · simp only [buildTagged, List.filter_cons, hp, Bool.not_true,
        taskEntries_posture_snd h t hp]
      exact ih h
    · have hp' : isPosture t = false := by simpa using hp
      simp only [buildTagged, List.filter_cons, hp', Bool.not_false, if_pos]
      rw [ih]

/-- Claim C10: in the fallback scheduler, posture tasks never advance the
shared hour cursor — filtering them out of the task list leaves every
other task with exactly the entries (times included) it had before. -/
theorem fallback_posture_keeps_cursor (h : Nat) (tasks : List String) :
    (fallback_schedule tasks).schedule = buildSchedule 11 tasks ∧
    buildSchedule h tasks = ((buildTagged h tasks).map Prod.snd).flatten ∧
    (buildTagged h tasks).filter (fun p => !(isPosture p.1)) =
      buildTagged h (tasks.filter (fun t => !(isPosture t))) :=
  ⟨rfl, buildSchedule_eq_join_tagged tasks h, buildTagged_filter_posture tasks h⟩

end Hack2Heal
